import Mathlib

/-!
Shallow embedding of the `http-nebula` static file server (`src/main.rs`):
configuration loading with fallback, request-path sanitization, content-type
resolution, and the per-connection handler pipeline, together with proofs of
the specification's claims about them.

Strings are modelled as Lean `String`s; the string-processing primitives the
Rust code uses (`split('/')`, `trim_start_matches('/')`, `join`,
`Path::extension`) are modelled as recursive functions on `List Char` so that
they can be reasoned about by induction.  File contents are byte lists
(`List Nat`), and the filesystem is an abstract read-only store.
-/

namespace HttpNebula

/-- Rust `str::split(sep)` on character lists: always returns one more piece
than the number of separators, so `split '/' ""` is `[""]` and
`split '/' "//"` is `["", "", ""]`. -/
def splitChar (sep : Char) : List Char → List (List Char)
  | [] => [[]]
  | c :: cs =>
    if c = sep then [] :: splitChar sep cs
    else
      match splitChar sep cs with
      | [] => [[c]]
      | p :: ps => (c :: p) :: ps

/-- Rust `Vec::<&str>::join(sep)` on character lists. -/
def joinChar (sep : Char) : List (List Char) → List Char
  | [] => []
  | [p] => p
  | p :: q :: ps => p ++ sep :: joinChar sep (q :: ps)

/-- The filter used by `sanitize_path`: keep a component iff it is non-empty
and is neither `"."` nor `".."`. -/
def keepComponent (c : List Char) : Bool :=
  !c.isEmpty && c != ['.'] && c != ['.', '.']

/-- Core of `sanitize_path` on character lists: strip leading `'/'`
characters (`trim_start_matches('/')`), split on `'/'`, drop empty, `"."`
and `".."` components, and re-join with `'/'`. -/
def sanitizeCore (l : List Char) : List Char :=
  joinChar '/' ((splitChar '/' (l.dropWhile (· == '/'))).filter keepComponent)

/-- `sanitize_path` from `src/main.rs`. -/
def sanitize_path (s : String) : String :=
  ⟨sanitizeCore s.data⟩

/-- The text after the last occurrence of `sep` in the list, or `none` when
`sep` does not occur. -/
def afterLast (sep : Char) : List Char → Option (List Char)
  | [] => none
  | c :: cs =>
    match afterLast sep cs with
    | some e => some e
    | none => if c = sep then some cs else none

/-- Rust `Path::file_name` on Unix path strings: the last component of the
path after normalizing away empty components and `"."` components, provided
that last component is not `".."` (`Path::file_name` returns `None` for
paths terminating in `".."`, for the root, and for the empty path). -/
def fileNameCore (l : List Char) : Option (List Char) :=
  match ((splitChar '/' l).filter fun c => !c.isEmpty && c != ['.']).getLast? with
  | some last => if last = ['.', '.'] then none else some last
  | none => none

/-- Rust `Path::extension().and_then(to_str).unwrap_or("")` on Unix path
strings: the text after the last `'.'` of the file name, where a `'.'` in
first position does not count (a file name beginning with `'.'` and
containing no other `'.'` has no extension), and paths without a file name
have extension `""`. -/
def extensionCore (l : List Char) : List Char :=
  match fileNameCore l with
  | some (_ :: rest) => (afterLast '.' rest).getD []
  | some [] => []
  | none => []

/-- The `match` table of `get_content_type` in `src/main.rs`. -/
def mimeMatch (extension : String) : String :=
  match extension with
  | "html" => "text/html"
  | "css" => "text/css"
  | "js" => "application/javascript"
  | "json" => "application/json"
  | "png" => "image/png"
  | "jpg" | "jpeg" => "image/jpeg"
  | "gif" => "image/gif"
  | "svg" => "image/svg+xml"
  | "ico" => "image/x-icon"
  | "pdf" => "application/pdf"
  | "txt" => "text/plain"
  | "xml" => "application/xml"
  | "webp" => "image/webp"
  | _ => "text/plain"

/-- `get_content_type` from `src/main.rs`: extension via `Path::extension`
(defaulting to `""`), then the fixed extension→MIME table. -/
def get_content_type (path : String) : String :=
  mimeMatch ⟨extensionCore path.data⟩

/-- The extension→MIME table as an association list, with the default
`"text/plain"` for extensions not in the table. -/
def mimeTable : List (String × String) :=
  [("html", "text/html"), ("css", "text/css"), ("js", "application/javascript"),
   ("json", "application/json"), ("png", "image/png"), ("jpg", "image/jpeg"),
   ("jpeg", "image/jpeg"), ("gif", "image/gif"), ("svg", "image/svg+xml"),
   ("ico", "image/x-icon"), ("pdf", "application/pdf"), ("txt", "text/plain"),
   ("xml", "application/xml"), ("webp", "image/webp")]

/-- Table lookup with default, used to state the content-type claims. -/
def mimeOf (e : String) : String :=
  (mimeTable.lookup e).getD "text/plain"

/-- The extension-extraction rule as the specification words it: the text
after the last `'.'` in the final path segment (the text after the last
`'/'`), and the empty string when no `'.'` is present there. -/
def specRuleExtension (l : List Char) : List Char :=
  (afterLast '.' ((afterLast '/' l).getD l)).getD []

/-- The content-type resolver as the specification describes it: the
spec-rule extension looked up in the fixed table, defaulting to
`"text/plain"`. -/
def get_content_type_spec (path : String) : String :=
  mimeOf ⟨specRuleExtension path.data⟩

structure ServerConfig where
  address : String
  port : Nat
  deriving DecidableEq

structure ContentConfig where
  public_dir : String
  default_file : String
  deriving DecidableEq

structure NebulaConfig where
  server : ServerConfig
  content : ContentConfig
  deriving DecidableEq

/-- `NebulaConfig::default()` from `src/main.rs`. -/
def NebulaConfig.default : NebulaConfig :=
  { server := { address := "127.0.0.1", port := 7878 }
    content := { public_dir := "public", default_file := "index.html" } }

/-- `load_config` from `src/main.rs`, with its two external effects passed in
as inputs: `readResult` is the outcome of `fs::read_to_string("nebula.toml")`
(`none` for `Err`), and `parseToml` is `toml::from_str` (`none` for `Err`).
On either failure the complete built-in default is substituted. -/
def load_config (readResult : Option String)
    (parseToml : String → Option NebulaConfig) : NebulaConfig :=
  match readResult with
  | some content =>
    match parseToml content with
    | some config => config
    | none => NebulaConfig.default
  | none => NebulaConfig.default

/-- Whether a byte is a UTF-8 continuation byte (`0x80`–`0xBF`). -/
def isCont (b : Nat) : Bool :=
  0x80 ≤ b && b ≤ 0xBF

/-- UTF-8 validity of a byte sequence, per RFC 3629 as enforced by Rust's
`String::from_utf8` (which is what makes `fs::read_to_string` fail on
non-UTF-8 file contents). -/
def validUtf8 : List Nat → Bool
  | [] => true
  | b :: bs =>
    if b ≤ 0x7F then validUtf8 bs
    else if 0xC2 ≤ b && b ≤ 0xDF then
      match bs with
      | b2 :: bs2 => isCont b2 && validUtf8 bs2
      | [] => false
    else if b = 0xE0 then
      match bs with
      | b2 :: b3 :: bs3 => (0xA0 ≤ b2 && b2 ≤ 0xBF) && isCont b3 && validUtf8 bs3
      | _ => false
    else if (0xE1 ≤ b && b ≤ 0xEC) || b = 0xEE || b = 0xEF then
      match bs with
      | b2 :: b3 :: bs3 => isCont b2 && isCont b3 && validUtf8 bs3
      | _ => false
    else if b = 0xED then
      match bs with
      | b2 :: b3 :: bs3 => (0x80 ≤ b2 && b2 ≤ 0x9F) && isCont b3 && validUtf8 bs3
      | _ => false
    else if b = 0xF0 then
      match bs with
      | b2 :: b3 :: b4 :: bs4 =>
        (0x90 ≤ b2 && b2 ≤ 0xBF) && isCont b3 && isCont b4 && validUtf8 bs4
      | _ => false
    else if 0xF1 ≤ b && b ≤ 0xF3 then
      match bs with
      | b2 :: b3 :: b4 :: bs4 => isCont b2 && isCont b3 && isCont b4 && validUtf8 bs4
      | _ => false
    else if b = 0xF4 then
      match bs with
      | b2 :: b3 :: b4 :: bs4 =>
        (0x80 ≤ b2 && b2 ≤ 0x8F) && isCont b3 && isCont b4 && validUtf8 bs4
      | _ => false
    else false

/-- The filesystem as the server sees it: an abstract read-only store.
`fileExists` models `Path::exists()`; `readFile` models `fs::read()`, whose
`Err` outcome (`none`) is kept independent of `fileExists` because a file can
exist at probe time and still fail to read (permissions, races). -/
structure FileSystem where
  fileExists : String → Bool
  readFile : String → Option (List Nat)

/-- `fs::read_to_string`: read the bytes, then require them to be valid
UTF-8; the served body is `contents.into_bytes()`, i.e. those same bytes. -/
def readToString (fs : FileSystem) (p : String) : Option (List Nat) :=
  match fs.readFile p with
  | some bs => if validUtf8 bs then some bs else none
  | none => none

/-- The UTF-8 bytes of an ASCII string literal (all the fixed diagnostic
bodies in `src/main.rs` are ASCII). -/
def strBytes (s : String) : List Nat :=
  s.data.map Char.toNat

/-- Candidate file path computation from `handle_connection`
(`src/main.rs` lines 104–111): `"{public_dir}/{default_file}"` for the root
path, `"{public_dir}/{sanitize_path(path)}"` otherwise. -/
def filePath (cfg : NebulaConfig) (path : String) : String :=
  if path = "/" then cfg.content.public_dir ++ "/" ++ cfg.content.default_file
  else cfg.content.public_dir ++ "/" ++ sanitize_path path

/-- Rust `str::starts_with` on strings, as a character-list prefix test. -/
def startsWithStr (s pre : String) : Bool :=
  pre.data.isPrefixOf s.data

/-- The binary-vs-text classification of `handle_connection`
(`src/main.rs` lines 116–118): binary iff the content type neither starts
with `"text/"` nor equals `"application/javascript"`. -/
def isBinaryOf (p : String) : Bool :=
  !startsWithStr (get_content_type p) "text/" && get_content_type p != "application/javascript"

/-- The outcome triple `(status_line, content, _)` computed by
`handle_connection` (`src/main.rs` lines 114–147) from the parsed method and
path, the configuration, and the filesystem. -/
def handleCore (fs : FileSystem) (cfg : NebulaConfig) (method path : String) :
    String × List Nat × Bool :=
  let file_path := filePath cfg path
  if method = "GET" then
    if fs.fileExists file_path then
      if isBinaryOf file_path then
        match fs.readFile file_path with
        | some contents => ("HTTP/1.1 200 OK", contents, true)
        | none => ("HTTP/1.1 500 INTERNAL SERVER ERROR", strBytes "Error reading file", false)
      else
        match readToString fs file_path with
        | some contents => ("HTTP/1.1 200 OK", contents, false)
        | none => ("HTTP/1.1 500 INTERNAL SERVER ERROR", strBytes "Error reading file", false)
    else if path = "/hello" then
      ("HTTP/1.1 200 OK", strBytes "Hello, Rustacean!", false)
    else
      ("HTTP/1.1 404 NOT FOUND", strBytes "Page not found", false)
  else
    ("HTTP/1.1 405 METHOD NOT ALLOWED", strBytes "Method not allowed", false)

/-- The full response `handle_connection` writes for one connection, as the
pair (header text, body bytes).  `parsed` is the result of
`parse_http_request` on the request buffer; `.getD ("GET", "/")` is the
`unwrap_or(("GET", "/"))` on line 99.  The `Content-Type` header is computed
from the candidate path unconditionally (line 149), after the outcome. -/
def handleResponse (fs : FileSystem) (cfg : NebulaConfig)
    (parsed : Option (String × String)) : String × List Nat :=
  let mp := parsed.getD ("GET", "/")
  let file_path := filePath cfg mp.2
  let r := handleCore fs cfg mp.1 mp.2
  let content_type := get_content_type file_path
  (r.1 ++ "\r\nContent-Type: " ++ content_type ++ "\r\nContent-Length: " ++
      toString r.2.1.length ++ "\r\n\r\n",
    r.2.1)

/-! ## Lemmas about splitting and joining -/

theorem splitChar_ne_nil (sep : Char) (l : List Char) : splitChar sep l ≠ [] := by
  cases l with
  | nil => simp [splitChar]
  | cons c cs =>
    simp only [splitChar]
    split
    · simp
    · split <;> simp

theorem sep_notMem_splitChar (sep : Char) (l : List Char) :
    ∀ p ∈ splitChar sep l, sep ∉ p := by
  induction l with
  | nil =>
    intro p hp
    simp only [splitChar, List.mem_singleton] at hp
    subst hp; simp
  | cons c cs ih =>
    intro p hp
    simp only [splitChar] at hp
    by_cases h : c = sep
    · rw [if_pos h] at hp
      rcases List.mem_cons.mp hp with h1 | h1
      · subst h1; simp
      · exact ih p h1
    · rw [if_neg h] at hp
      cases hs : splitChar sep cs with
      | nil => exact absurd hs (splitChar_ne_nil sep cs)
      | cons q qs =>
        rw [hs] at hp
        rcases List.mem_cons.mp hp with h1 | h1
        · subst h1
          intro hmem
          rcases List.mem_cons.mp hmem with h2 | h2
          · exact h h2.symm
          · exact ih q (by rw [hs]; exact List.mem_cons_self q qs) h2
        · exact ih p (by rw [hs]; exact List.mem_cons_of_mem q h1)

theorem splitChar_of_notMem (sep : Char) (l : List Char) (h : sep ∉ l) :
    splitChar sep l = [l] := by
  induction l with
  | nil => rfl
  | cons c cs ih =>
    have hc : c ≠ sep := fun hcc => h (List.mem_cons.mpr (Or.inl hcc.symm))
    simp only [splitChar, if_neg hc]
    rw [ih fun hm => h (List.mem_cons_of_mem c hm)]

theorem splitChar_append (sep : Char) (p r : List Char) (h : sep ∉ p) :
    splitChar sep (p ++ sep :: r) = p :: splitChar sep r := by
  induction p with
  | nil => simp [splitChar]
  | cons c cs ih =>
    have hc : c ≠ sep := fun hcc => h (List.mem_cons.mpr (Or.inl hcc.symm))
    simp only [List.cons_append, splitChar, if_neg hc, List.append_eq]
    rw [ih fun hm => h (List.mem_cons_of_mem c hm)]

theorem splitChar_joinChar (sep : Char) :
    ∀ ps : List (List Char), ps ≠ [] → (∀ p ∈ ps, sep ∉ p) →
      splitChar sep (joinChar sep ps) = ps := by
  intro ps
  induction ps with
  | nil => intro hne _; exact absurd rfl hne
  | cons p qs ih =>
    intro _ h
    cases qs with
    | nil => simpa [joinChar] using splitChar_of_notMem sep p (h p (by simp))
    | cons q rs =>
      simp only [joinChar]
      rw [splitChar_append sep p _ (h p (by simp))]
      rw [ih (by simp) fun x hx => h x (List.mem_cons_of_mem p hx)]

theorem filter_splitChar_dropWhile (sep : Char) (l : List Char) :
    (splitChar sep (l.dropWhile (· == sep))).filter keepComponent =
      (splitChar sep l).filter keepComponent := by
  induction l with
  | nil => rfl
  | cons c cs ih =>
    by_cases h : c = sep
    · subst h
      rw [List.dropWhile_cons_of_pos (by simp)]
      rw [ih]
      simp [splitChar, keepComponent]
    · rw [List.dropWhile_cons_of_neg (by simp [h])]

/-- The members of the filtered split keep their defining properties. -/
theorem sanitizeCore_join (ps : List (List Char))
    (hkeep : ∀ p ∈ ps, keepComponent p = true)
    (hsep : ∀ p ∈ ps, '/' ∉ p) :
    sanitizeCore (joinChar '/' ps) = joinChar '/' ps := by
  cases ps with
  | nil => rfl
  | cons p qs =>
    have hp := hkeep p (List.mem_cons_self p qs)
    obtain ⟨a, p', rfl⟩ : ∃ a p', p = a :: p' := by
      cases p with
      | nil => simp [keepComponent] at hp
      | cons a p' => exact ⟨a, p', rfl⟩
    have ha : a ≠ '/' :=
      fun hh => hsep _ (List.mem_cons_self _ qs) (List.mem_cons.mpr (Or.inl hh.symm))
    have hrest : ∃ rest, joinChar '/' ((a :: p') :: qs) = a :: (p' ++ rest) := by
      cases qs with
      | nil => exact ⟨[], by simp [joinChar]⟩
      | cons q rs => exact ⟨'/' :: joinChar '/' (q :: rs), by simp [joinChar]⟩
    obtain ⟨rest, hrest⟩ := hrest
    unfold sanitizeCore
    have hdrop : (joinChar '/' ((a :: p') :: qs)).dropWhile (· == '/') =
        joinChar '/' ((a :: p') :: qs) := by
      rw [hrest]
      exact List.dropWhile_cons_of_neg (by simp [ha])
    rw [hdrop]
    rw [splitChar_joinChar '/' ((a :: p') :: qs) (by simp) hsep]
    rw [List.filter_eq_self.mpr hkeep]

theorem sanitizeCore_idem (l : List Char) :
    sanitizeCore (sanitizeCore l) = sanitizeCore l := by
  have h1 : ∀ p ∈ (splitChar '/' (l.dropWhile (· == '/'))).filter keepComponent,
      keepComponent p = true := fun p hp => List.of_mem_filter hp
  have h2 : ∀ p ∈ (splitChar '/' (l.dropWhile (· == '/'))).filter keepComponent,
      '/' ∉ p := fun p hp => sep_notMem_splitChar '/' _ p (List.mem_of_mem_filter hp)
  exact sanitizeCore_join _ h1 h2

/-- C1 (counterexample): the specification's example
`sanitize("/a/./b/../c") == "a/c"` is false — dropping the `".."` component
does not erase the preceding `"b"`, so the code yields `"a/b/c"`. -/
theorem sanitize_path_example_cex :
    sanitize_path "/a/./b/../c" = "a/b/c" ∧ ("a/b/c" : String) ≠ "a/c" := by
  refine ⟨by decide, by decide⟩

/-- C1 (amended): `sanitize_path` drops every component that is empty, `"."`
or `".."` and rejoins the survivors with `"/"`; the surviving components are
kept verbatim, so `sanitize("/a/./b/../c") = "a/b/c"` (not `"a/c"`), while
`sanitize("/../../etc/passwd") = "etc/passwd"` and `sanitize("////") = ""`
hold as stated. -/
theorem sanitize_path_spec :
    (∀ p : String,
      sanitize_path p = ⟨joinChar '/' ((splitChar '/' p.data).filter keepComponent)⟩) ∧
    sanitize_path "/../../etc/passwd" = "etc/passwd" ∧
    sanitize_path "/a/./b/../c" = "a/b/c" ∧
    sanitize_path "////" = "" := by
  refine ⟨fun p => ?_, by decide, by decide, by decide⟩
  show (⟨sanitizeCore p.data⟩ : String) = _
  unfold sanitizeCore
  rw [filter_splitChar_dropWhile]

/-- C9: `sanitize_path` is idempotent. -/
theorem sanitize_path_idempotent :
    ∀ p : String, sanitize_path (sanitize_path p) = sanitize_path p := by
  intro p
  show (⟨sanitizeCore (String.data ⟨sanitizeCore p.data⟩)⟩ : String) = ⟨sanitizeCore p.data⟩
  exact congrArg String.mk (sanitizeCore_idem p.data)

/-! ## The connection handler -/

/-- C3: any request whose parsed method is not exactly `"GET"` yields the
fixed 405 outcome, for every filesystem, configuration and path. -/
theorem non_get_405 (fs : FileSystem) (cfg : NebulaConfig) (method path : String)
    (h : method ≠ "GET") :
    handleCore fs cfg method path =
      ("HTTP/1.1 405 METHOD NOT ALLOWED", strBytes "Method not allowed", false) := by
  unfold handleCore
  rw [if_neg h]

/-- C3 witness: a `POST /anything` is answered 405 even though the candidate
file exists. -/
theorem non_get_405_witness :
    handleCore ⟨fun _ => true, fun _ => some [1, 2, 3]⟩ NebulaConfig.default
        "POST" "/anything" =
      ("HTTP/1.1 405 METHOD NOT ALLOWED", strBytes "Method not allowed", false) :=
  non_get_405 _ _ _ _ (by decide)

/-- C2 (counterexample): a GET whose candidate file exists is *not* always
answered 200 with the file's content — when the read fails the status is
500, falsifying the claim's first clause at this input. -/
theorem handle_get_existing_200_cex :
    (FileSystem.mk (fun _ => true) (fun _ => none)).fileExists
        (filePath NebulaConfig.default "/img.png") = true ∧
    handleCore (FileSystem.mk (fun _ => true) (fun _ => none)) NebulaConfig.default
        "GET" "/img.png" =
      ("HTTP/1.1 500 INTERNAL SERVER ERROR", strBytes "Error reading file", false) ∧
    (handleCore (FileSystem.mk (fun _ => true) (fun _ => none)) NebulaConfig.default
        "GET" "/img.png").1 ≠ "HTTP/1.1 200 OK" := by
  refine ⟨rfl, by decide, by decide⟩

/-- C2 (amended): for GET requests, an existing candidate file is served
with 200 and its content *when the read succeeds* (raw bytes when classified
binary, UTF-8-validated bytes otherwise), a failed read yields the fixed 500
outcome, and when the candidate does not exist the response is the fixed 200
`"Hello, Rustacean!"` outcome iff the path is `"/hello"`, else the fixed
404 outcome. -/
theorem handle_get_outcomes (fs : FileSystem) (cfg : NebulaConfig) (path : String) :
    (∀ bs, fs.fileExists (filePath cfg path) = true →
      isBinaryOf (filePath cfg path) = true →
      fs.readFile (filePath cfg path) = some bs →
      handleCore fs cfg "GET" path = ("HTTP/1.1 200 OK", bs, true)) ∧
    (∀ bs, fs.fileExists (filePath cfg path) = true →
      isBinaryOf (filePath cfg path) = false →
      readToString fs (filePath cfg path) = some bs →
      handleCore fs cfg "GET" path = ("HTTP/1.1 200 OK", bs, false)) ∧
    (fs.fileExists (filePath cfg path) = true →
      (if isBinaryOf (filePath cfg path) then fs.readFile (filePath cfg path)
        else readToString fs (filePath cfg path)) = none →
      handleCore fs cfg "GET" path =
        ("HTTP/1.1 500 INTERNAL SERVER ERROR", strBytes "Error reading file", false)) ∧
    (fs.fileExists (filePath cfg path) = false →
      (handleCore fs cfg "GET" path =
          ("HTTP/1.1 200 OK", strBytes "Hello, Rustacean!", false) ↔ path = "/hello")) ∧
    (fs.fileExists (filePath cfg path) = false → path ≠ "/hello" →
      handleCore fs cfg "GET" path =
        ("HTTP/1.1 404 NOT FOUND", strBytes "Page not found", false)) := by
  refine ⟨fun bs hex hbin hread => ?_, fun bs hex hbin hread => ?_,
    fun hex hnone => ?_, fun hex => ?_, fun hex hpath => ?_⟩
  · simp [handleCore, hex, hbin, hread]
  · simp [handleCore, hex, hbin, hread]
  · by_cases hbin : isBinaryOf (filePath cfg path)
    · rw [if_pos hbin] at hnone
      simp [handleCore, hex, hbin, hnone]
    · rw [if_neg hbin] at hnone
      simp [handleCore, hex, hbin, hnone]
  · constructor
    · intro h
      by_contra hpath
      simp [handleCore, hex, hpath] at h
    · intro h
      subst h
      simp [handleCore, hex]
  · simp [handleCore, hex, hpath]

/-- C2 witness: a binary file is served raw with 200, and a GET to `/hello`
with no such file is answered by the diagnostic route. -/
theorem handle_get_outcomes_witness :
    handleCore ⟨fun _ => true, fun _ => some [255]⟩ NebulaConfig.default
        "GET" "/img.png" = ("HTTP/1.1 200 OK", [255], true) ∧
    handleCore ⟨fun _ => false, fun _ => none⟩ NebulaConfig.default
        "GET" "/hello" = ("HTTP/1.1 200 OK", strBytes "Hello, Rustacean!", false) :=
  ⟨(handle_get_outcomes ⟨fun _ => true, fun _ => some [255]⟩ NebulaConfig.default
      "/img.png").1 [255] rfl (by decide) rfl,
    ((handle_get_outcomes ⟨fun _ => false, fun _ => none⟩ NebulaConfig.default
      "/hello").2.2.2.1 rfl).mpr rfl⟩

/-- C10: a GET for an existing candidate classified non-binary whose bytes
are not valid UTF-8 is answered with the fixed 500 outcome — the raw bytes
are never served. -/
theorem nonbinary_invalid_utf8_500 (fs : FileSystem) (cfg : NebulaConfig)
    (path : String) (bs : List Nat)
    (hex : fs.fileExists (filePath cfg path) = true)
    (hct : startsWithStr (get_content_type (filePath cfg path)) "text/" = true ∨
      get_content_type (filePath cfg path) = "application/javascript")
    (hread : fs.readFile (filePath cfg path) = some bs)
    (hutf : validUtf8 bs = false) :
    handleCore fs cfg "GET" path =
      ("HTTP/1.1 500 INTERNAL SERVER ERROR", strBytes "Error reading file", false) := by
  have hbin : isBinaryOf (filePath cfg path) = false := by
    unfold isBinaryOf
    rcases hct with h | h
    · simp [h]
    · simp [h]
  have hrts : readToString fs (filePath cfg path) = none := by
    simp [readToString, hread, hutf]
  simp [handleCore, hex, hbin, hrts]

/-- C10 witness: a text file whose single byte `0xFF` is not valid UTF-8
yields the 500 outcome. -/
theorem nonbinary_invalid_utf8_500_witness :
    handleCore ⟨fun _ => true, fun _ => some [255]⟩ NebulaConfig.default
        "GET" "/a.txt" =
      ("HTTP/1.1 500 INTERNAL SERVER ERROR", strBytes "Error reading file", false) :=
  nonbinary_invalid_utf8_500 _ _ "/a.txt" [255] rfl (Or.inl (by decide)) rfl (by decide)

/-- C4: the `Content-Type` header is always computed by applying the
resolver to the candidate filesystem path, for every outcome; in particular
a 404 (and a 405) for a candidate ending in `.png` reports
`Content-Type: image/png` although the body is a fixed diagnostic string. -/
theorem content_type_from_candidate :
    (∀ fs cfg parsed,
      (handleResponse fs cfg parsed).1 =
        (handleCore fs cfg (parsed.getD ("GET", "/")).1 (parsed.getD ("GET", "/")).2).1 ++
          "\r\nContent-Type: " ++
          get_content_type (filePath cfg (parsed.getD ("GET", "/")).2) ++
          "\r\nContent-Length: " ++
          toString (handleCore fs cfg (parsed.getD ("GET", "/")).1
            (parsed.getD ("GET", "/")).2).2.1.length ++ "\r\n\r\n") ∧
    (handleResponse ⟨fun _ => false, fun _ => none⟩ NebulaConfig.default
        (some ("GET", "/foo.png"))).1 =
      "HTTP/1.1 404 NOT FOUND\r\nContent-Type: image/png\r\nContent-Length: 14\r\n\r\n" ∧
    (handleResponse ⟨fun _ => false, fun _ => none⟩ NebulaConfig.default
        (some ("POST", "/foo.png"))).1 =
      "HTTP/1.1 405 METHOD NOT ALLOWED\r\nContent-Type: image/png\r\nContent-Length: 18\r\n\r\n" := by
  refine ⟨fun fs cfg parsed => rfl, by decide, by decide⟩

/-- C6: a failed parse is replaced by the pair `("GET", "/")`, the root path
maps to `{public_dir}/{default_file}`, and every other path maps to
`{public_dir}/{sanitize_path(path)}`. -/
theorem parse_default_and_candidate :
    (∀ fs cfg, handleResponse fs cfg none = handleResponse fs cfg (some ("GET", "/"))) ∧
    (∀ cfg : NebulaConfig,
      filePath cfg "/" = cfg.content.public_dir ++ "/" ++ cfg.content.default_file) ∧
    (∀ (cfg : NebulaConfig) (p : String), p ≠ "/" →
      filePath cfg p = cfg.content.public_dir ++ "/" ++ sanitize_path p) ∧
    filePath NebulaConfig.default "/" = "public/index.html" := by
  refine ⟨fun fs cfg => rfl, fun cfg => rfl, fun cfg p hp => ?_, by decide⟩
  unfold filePath
  rw [if_neg hp]

/-- C6 witness: the substitution and the non-root candidate mapping at
concrete inputs. -/
theorem parse_default_and_candidate_witness :
    handleResponse ⟨fun _ => false, fun _ => none⟩ NebulaConfig.default none =
      handleResponse ⟨fun _ => false, fun _ => none⟩ NebulaConfig.default
        (some ("GET", "/")) ∧
    filePath NebulaConfig.default "/x" =
      NebulaConfig.default.content.public_dir ++ "/" ++ sanitize_path "/x" :=
  ⟨parse_default_and_candidate.1 ⟨fun _ => false, fun _ => none⟩ NebulaConfig.default,
    parse_default_and_candidate.2.2.1 NebulaConfig.default "/x" (by decide)⟩

/-- C7: `load_config` is total with complete-default fallback — a failed
read or a failed parse yields exactly the built-in default configuration,
and the result is always either the whole parsed file value or the whole
default (never a partial merge). -/
theorem load_config_total_fallback :
    (∀ pt, load_config none pt = NebulaConfig.default) ∧
    (∀ c pt, pt c = none → load_config (some c) pt = NebulaConfig.default) ∧
    (∀ rr pt, load_config rr pt = NebulaConfig.default ∨
      ∃ c cfg, rr = some c ∧ pt c = some cfg ∧ load_config rr pt = cfg) ∧
    NebulaConfig.default =
      ⟨⟨"127.0.0.1", 7878⟩, ⟨"public", "index.html"⟩⟩ := by
  refine ⟨fun pt => rfl, fun c pt h => ?_, fun rr pt => ?_, rfl⟩
  · simp [load_config, h]
  · cases rr with
    | none => exact Or.inl rfl
    | some c =>
      cases h : pt c with
      | none => exact Or.inl (by simp [load_config, h])
      | some cfg => exact Or.inr ⟨c, cfg, rfl, h, by simp [load_config, h]⟩

/-- C7 witness: an unparsable file falls back to the complete default. -/
theorem load_config_total_fallback_witness :
    load_config (some "garbage") (fun _ => none) = NebulaConfig.default :=
  load_config_total_fallback.2.1 "garbage" (fun _ => none) rfl

/-- Exhaustive enumeration of the outcome triples `handleCore` can produce,
with the filesystem fact that justifies each 200 body. -/
theorem handleCore_cases (fs : FileSystem) (cfg : NebulaConfig) (method path : String) :
    handleCore fs cfg method path =
        ("HTTP/1.1 405 METHOD NOT ALLOWED", strBytes "Method not allowed", false) ∨
    (∃ bs, fs.readFile (filePath cfg path) = some bs ∧
      handleCore fs cfg method path = ("HTTP/1.1 200 OK", bs, true)) ∨
    (∃ bs, readToString fs (filePath cfg path) = some bs ∧
      handleCore fs cfg method path = ("HTTP/1.1 200 OK", bs, false)) ∨
    handleCore fs cfg method path =
        ("HTTP/1.1 500 INTERNAL SERVER ERROR", strBytes "Error reading file", false) ∨
    handleCore fs cfg method path =
        ("HTTP/1.1 200 OK", strBytes "Hello, Rustacean!", false) ∨
    handleCore fs cfg method path =
        ("HTTP/1.1 404 NOT FOUND", strBytes "Page not found", false) := by
  by_cases hm : method = "GET"
  · cases hex : fs.fileExists (filePath cfg path) with
    | false =>
      by_cases hp : path = "/hello"
      · subst hp
        exact Or.inr (Or.inr (Or.inr (Or.inr (Or.inl (by simp [handleCore, hm, hex])))))
      · exact Or.inr (Or.inr (Or.inr (Or.inr (Or.inr (by simp [handleCore, hm, hex, hp])))))
    | true =>
      by_cases hbin : isBinaryOf (filePath cfg path)
      · cases hr : fs.readFile (filePath cfg path) with
        | none =>
          exact Or.inr (Or.inr (Or.inr (Or.inl (by simp [handleCore, hm, hex, hbin, hr]))))
        | some bs =>
          exact Or.inr (Or.inl ⟨bs, rfl, by simp [handleCore, hm, hex, hbin, hr]⟩)
      · cases hr : readToString fs (filePath cfg path) with
        | none =>
          exact Or.inr (Or.inr (Or.inr (Or.inl (by simp [handleCore, hm, hex, hbin, hr]))))
        | some bs =>
          exact Or.inr (Or.inr (Or.inl ⟨bs, rfl, by simp [handleCore, hm, hex, hbin, hr]⟩))
  · exact Or.inl (by simp [handleCore, hm])

/-- C8: every response is well-formed — the status line is one of the four
fixed ones, the serialized header block is status line, `Content-Type`,
`Content-Length` equal to the body's byte length, and a blank line; a 500
body is exactly the fixed diagnostic (never partial file bytes), and a 200
body is either bytes obtained from the filesystem or the fixed diagnostic
string of the `/hello` route. -/
theorem response_well_formed (fs : FileSystem) (cfg : NebulaConfig)
    (method path : String) :
    ((handleCore fs cfg method path).1 = "HTTP/1.1 200 OK" ∨
      (handleCore fs cfg method path).1 = "HTTP/1.1 404 NOT FOUND" ∨
      (handleCore fs cfg method path).1 = "HTTP/1.1 405 METHOD NOT ALLOWED" ∨
      (handleCore fs cfg method path).1 = "HTTP/1.1 500 INTERNAL SERVER ERROR") ∧
    (∀ parsed : Option (String × String),
      handleResponse fs cfg parsed =
        ((handleCore fs cfg (parsed.getD ("GET", "/")).1 (parsed.getD ("GET", "/")).2).1 ++
            "\r\nContent-Type: " ++
            get_content_type (filePath cfg (parsed.getD ("GET", "/")).2) ++
            "\r\nContent-Length: " ++
            toString (handleCore fs cfg (parsed.getD ("GET", "/")).1
              (parsed.getD ("GET", "/")).2).2.1.length ++ "\r\n\r\n",
          (handleCore fs cfg (parsed.getD ("GET", "/")).1
            (parsed.getD ("GET", "/")).2).2.1)) ∧
    ((handleCore fs cfg method path).1 = "HTTP/1.1 500 INTERNAL SERVER ERROR" →
      (handleCore fs cfg method path).2.1 = strBytes "Error reading file") ∧
    ((handleCore fs cfg method path).1 = "HTTP/1.1 200 OK" →
      fs.readFile (filePath cfg path) = some (handleCore fs cfg method path).2.1 ∨
      readToString fs (filePath cfg path) = some (handleCore fs cfg method path).2.1 ∨
      (handleCore fs cfg method path).2.1 = strBytes "Hello, Rustacean!") := by
  refine ⟨?_, fun parsed => rfl, ?_, ?_⟩
  · rcases handleCore_cases fs cfg method path with h | ⟨bs, _, h⟩ | ⟨bs, _, h⟩ | h | h | h <;>
      rw [h] <;> simp
  · rcases handleCore_cases fs cfg method path with h | ⟨bs, _, h⟩ | ⟨bs, _, h⟩ | h | h | h <;>
      rw [h]
    · simp
    · simp
    · simp
    · intro _; rfl
    · simp
    · simp
  · rcases handleCore_cases fs cfg method path with h | ⟨bs, hbs, h⟩ | ⟨bs, hbs, h⟩ | h | h | h <;>
      rw [h]
    · simp
    · intro _; exact Or.inl hbs
    · intro _; exact Or.inr (Or.inl hbs)
    · simp
    · intro _; exact Or.inr (Or.inr rfl)
    · simp

/-- C8 witness: the status line of a concrete response is among the four
fixed status lines. -/
theorem response_well_formed_witness :
    (handleCore ⟨fun _ => false, fun _ => none⟩ NebulaConfig.default "GET" "/x").1 =
        "HTTP/1.1 200 OK" ∨
      (handleCore ⟨fun _ => false, fun _ => none⟩ NebulaConfig.default "GET" "/x").1 =
        "HTTP/1.1 404 NOT FOUND" ∨
      (handleCore ⟨fun _ => false, fun _ => none⟩ NebulaConfig.default "GET" "/x").1 =
        "HTTP/1.1 405 METHOD NOT ALLOWED" ∨
      (handleCore ⟨fun _ => false, fun _ => none⟩ NebulaConfig.default "GET" "/x").1 =
        "HTTP/1.1 500 INTERNAL SERVER ERROR" :=
  (response_well_formed ⟨fun _ => false, fun _ => none⟩ NebulaConfig.default "GET" "/x").1

/-! ## The content-type resolver -/

/-- The hard-coded `match` of `get_content_type` agrees with lookup in the
association-list form of the extension→MIME table. -/
theorem mimeMatch_eq_mimeOf (e : String) : mimeMatch e = mimeOf e := by
  unfold mimeMatch mimeOf mimeTable
  repeat' split
  all_goals simp_all [List.lookup, beq_eq_decide]

/-- C5 (counterexample): the resolver does not extract "the text after the
last `.` in the final path segment" — for the dotfile path `".html"` that
rule yields extension `"html"` and MIME `"text/html"`, but the code
(`Path::extension`) treats a leading `.` as hidden-file marker, finds no
extension, and returns `"text/plain"`. -/
theorem get_content_type_dotfile_cex :
    get_content_type_spec ".html" = "text/html" ∧
    get_content_type ".html" = "text/plain" ∧
    get_content_type ".html" ≠ get_content_type_spec ".html" := by
  refine ⟨by decide, by decide, by decide⟩

/-- C5 (amended): the resolver extracts the extension per Rust's
`Path::extension` — the file name is the last non-empty, non-`"."` component
provided it is not `".."`, and the extension is the text after the last `.`
not in the file name's first position (empty when there is no such `.`, so
dotfiles such as `".html"` have empty extension) — and looks it up
case-sensitively in the fixed table, returning `"text/plain"` for every
unmatched or empty extension. -/
theorem get_content_type_table :
    (∀ p : String, get_content_type p = mimeOf ⟨extensionCore p.data⟩) ∧
    get_content_type "index.html" = "text/html" ∧
    get_content_type "public/style.css" = "text/css" ∧
    get_content_type "a.xyz" = "text/plain" ∧
    get_content_type "noext" = "text/plain" ∧
    get_content_type ".html" = "text/plain" ∧
    mimeOf "xyz" = "text/plain" ∧
    mimeOf "" = "text/plain" := by
  exact ⟨fun p => mimeMatch_eq_mimeOf _, by decide, by decide, by decide, by decide,
    by decide, by decide, by decide⟩

end HttpNebula
